import Mathlib

/-!
Verification development for the therapy-term-normalization repository.

The Python sources under scrutiny are `therapy/etl/rxnorm.py`,
`therapy/etl/drugbank.py`, `therapy/etl/wikidata.py`, `therapy/etl/chembl.py`
and `dynamodb_revisions/add_xrefs.py`.  Pure string manipulation is embedded
as structural functions over `List Char` (so concrete runs reduce inside the
kernel); dictionaries with insertion order become association lists; DynamoDB
items become records with `Option`-valued attributes (attribute absent =
`none`).  Constants that live in modules of the repository that are not part
of the provided sources (`therapy/__init__.py`, `therapy/schemas.py`,
`therapy/etl/base.py`) are modelled from the specification and marked as such
in their doc comments.
-/

namespace TherapyNorm

/-! ## Python string primitives -/

/-- ASCII lower-casing of one character.  Models the effect of Python
`str.lower` on the ASCII strings handled in this development. -/
def pyLowerChar (c : Char) : Char :=
  if 'A' ≤ c ∧ c ≤ 'Z' then Char.ofNat (c.toNat + 32) else c

/-- ASCII upper-casing of one character.  Models the effect of Python
`str.upper` on the ASCII strings handled in this development. -/
def pyUpperChar (c : Char) : Char :=
  if 'a' ≤ c ∧ c ≤ 'z' then Char.ofNat (c.toNat - 32) else c

/-- Python `str.lower` (ASCII fragment, which covers every string that the
embedded code paths manipulate). -/
def pyLower (s : String) : String := ⟨s.data.map pyLowerChar⟩

/-- Python `str.upper` (ASCII fragment). -/
def pyUpper (s : String) : String := ⟨s.data.map pyUpperChar⟩

/-- Python `str.casefold`.  On the ASCII strings appearing in this
development `casefold` agrees with lower-casing, which is how it is
modelled here. -/
def caseFold (s : String) : String := ⟨s.data.map pyLowerChar⟩

/-- Python `str.strip` with no argument: drop leading and trailing
whitespace. -/
def pyStrip (s : String) : String :=
  ⟨((s.data.dropWhile Char.isWhitespace).reverse.dropWhile
      Char.isWhitespace).reverse⟩

/-- Split a character list at every occurrence of the separator character.
Mirrors Python `str.split(sep)` for a one-character separator: the result
always has at least one (possibly empty) component. -/
def splitCharAux (sep : Char) : List Char → List (List Char)
  | [] => [[]]
  | c :: cs =>
      match splitCharAux sep cs with
      | [] => [[c]]
      | r :: rs => if c = sep then [] :: r :: rs else (c :: r) :: rs

/-- Python `s.split(sep)` for a one-character separator. -/
def splitChar (sep : Char) (s : String) : List String :=
  (splitCharAux sep s.data).map (fun l => ⟨l⟩)

/-- Replace every (non-overlapping, left-to-right) occurrence of a non-empty
pattern; the fuel argument bounds the recursion by the input length. -/
def pyReplaceAux (pat : List Char) : Nat → List Char → List Char
  | 0, s => s
  | _ + 1, [] => []
  | fuel + 1, c :: cs =>
      if pat ≠ [] ∧ pat.isPrefixOf (c :: cs) then
        pyReplaceAux pat fuel ((c :: cs).drop pat.length)
      else
        c :: pyReplaceAux pat fuel cs

/-- Python `s.replace(pat, "")`: delete every occurrence of `pat`. -/
def pyReplace (s pat : String) : String :=
  ⟨pyReplaceAux pat.data s.data.length s.data⟩

/-- Substring test on character lists (Python's `in` on strings). -/
def hasInfixAux (pat : List Char) : List Char → Bool
  | [] => pat.isEmpty
  | c :: cs => pat.isPrefixOf (c :: cs) || hasInfixAux pat cs

/-- Python `pat in s` for strings. -/
def pyContains (s pat : String) : Bool := hasInfixAux pat.data s.data

/-- Python `c in s` for a single character. -/
def pyContainsChar (c : Char) (s : String) : Bool := s.data.contains c

/-! ## The RxNorm strength/units regular expression

`rxnorm.py` deletes every match of
`(\d*)(\d*\.)?\d+ (MG|UNT|ML)?(/(ML|HR|MG))?` from a term
(`re.sub(..., "", term)`).  The functions below implement exactly the
language and the leftmost / greedy behaviour of that pattern: a run of
digits optionally carrying one decimal point (with at least one digit after
it), a mandatory space, an optional unit `MG`/`UNT`/`ML`, and an optional
`/ML`, `/HR` or `/MG` suffix. -/

/-- Length consumed by the optional unit and optional rate suffix of the
strength pattern, starting right after the mandatory space. -/
def unitsLen (s : List Char) : Nat :=
  let u :=
    if ['M', 'G'].isPrefixOf s then 2
    else if ['U', 'N', 'T'].isPrefixOf s then 3
    else if ['M', 'L'].isPrefixOf s then 2
    else 0
  let rest := s.drop u
  let v :=
    match rest with
    | '/' :: r =>
        if ['M', 'L'].isPrefixOf r then 3
        else if ['H', 'R'].isPrefixOf r then 3
        else if ['M', 'G'].isPrefixOf r then 3
        else 0
    | _ => 0
  u + v

/-- Attempt to match the strength pattern at the head of `s`; returns the
length of the (always non-empty) match. -/
def matchStrength (s : List Char) : Option Nat :=
  let n1 := (s.takeWhile Char.isDigit).length
  let tryNum : Nat → Option Nat := fun k =>
    match s.drop k with
    | ' ' :: rest => some (k + 1 + unitsLen rest)
    | _ => none
  let ext : Option Nat :=
    match s.drop n1 with
    | '.' :: r2 =>
        let n2 := (r2.takeWhile Char.isDigit).length
        if 0 < n2 then some (n1 + 1 + n2) else none
    | _ => none
  match ext with
  | some k =>
      match tryNum k with
      | some m => some m
      | none => if 0 < n1 then tryNum n1 else none
  | none => if 0 < n1 then tryNum n1 else none

/-- One sweep of `re.sub(pattern, "", ...)`: at each position either delete a
match or keep the character.  Fuel bounds the recursion. -/
def stripStrengthAux : Nat → List Char → List Char
  | 0, s => s
  | _ + 1, [] => []
  | fuel + 1, c :: cs =>
      match matchStrength (c :: cs) with
      | some n => stripStrengthAux fuel ((c :: cs).drop n)
      | none => c :: stripStrengthAux fuel cs

/-- `re.sub(r"(\d*)(\d*\.)?\d+ (MG|UNT|ML)?(/(ML|HR|MG))?", "", term)`
from `rxnorm.py`. -/
def stripStrength (term : String) : String :=
  ⟨stripStrengthAux term.data.length term.data⟩

/-- `term.split("[")[-1].split("]")[0]` from `rxnorm.py`: the last
`[`-delimited component, truncated at the first `]`. -/
def lastBracket (term : String) : String :=
  ((splitChar ']' ((splitChar '[' term).getLast! )).head!)

/-! ## Association-list dictionaries (Python `dict` with insertion order) -/

/-- Look up a key in an association list. -/
def dictGet {β : Type} (d : List (String × β)) (k : String) : Option β :=
  match d.find? (fun e => e.1 = k) with
  | some e => some e.2
  | none => none

/-- Replace the value stored under a key (position preserved), appending the
pair when the key is new — Python `d[k] = v`. -/
def dictSet {β : Type} (d : List (String × β)) (k : String) (v : β) :
    List (String × β) :=
  if (d.find? (fun e => e.1 = k)).isSome then
    d.map (fun e => if e.1 = k then (k, v) else e)
  else
    d ++ [(k, v)]

/-- `RxNorm._add_term_to_field` applied to a dict field holding a list:
append `term` to `d[field]` unless already present; create the entry when
the field is missing or holds an empty (falsy) list. -/
def addTermToField (d : List (String × List String)) (field term : String) :
    List (String × List String) :=
  match dictGet d field with
  | some l =>
      if l ≠ [] then
        (if term ∈ l then d else dictSet d field (l ++ [term]))
      else dictSet d field [term]
  | none => d ++ [(field, [term])]

/-- `RxNorm._add_term_to_field` applied to a record attribute
(`Option`-valued: `none` = key absent from the Python dict). -/
def addTermOpt (o : Option (List String)) (term : String) :
    Option (List String) :=
  match o with
  | some l =>
      if l ≠ [] then
        (if term ∈ l then some l else some (l ++ [term]))
      else some [term]
  | none => some [term]

/-! ## Case-folded distinct-value count (the fan-out cap) -/

/-- `len({a.casefold() for a in l})`: number of distinct case-folded
values. -/
def cfCount (l : List String) : Nat := ((l.map caseFold).dedup).length

/-! ## The cross-reference backfill job (`dynamodb_revisions/add_xrefs.py`) -/

/-- Low-level DynamoDB attribute value as read by the backfill job: either a
list of strings (`{'L': [...]}`) or a null marker (`{'NULL': True}`). -/
inductive AttrVal : Type
  | l (xs : List String)
  | nullMarker
deriving DecidableEq, Repr

/-- A stored therapy item.  Attributes that may be absent are `Option`s. -/
structure Item : Type where
  label_and_type : String
  concept_id : String
  src_name : String
  other_identifiers : Option AttrVal
  xrefs : Option AttrVal
  label : Option String
  aliases : Option AttrVal
  trade_names : Option AttrVal
  approval_status : Option String
deriving DecidableEq, Repr

/-- Modelled from the spec: `normalizer_srcs` in `add_xrefs.py` is
`{NamespacePrefix[src].value for src in SourceName.__members__}` — the
namespace prefixes of the sources the normalizer itself ingests.  The
enumerations live in the missing `therapy/schemas.py`; per the spec the
native sources are the chemical-compound registry (ChEMBL), the
drug-relationship registry (DrugBank), the clinical terminology (RxNorm,
prefix `rxcui`), the knowledge graph (Wikidata) and ChemIDplus. -/
def normalizerSrcs : List String :=
  ["chembl", "chemidplus", "drugbank", "rxcui", "wikidata"]

/-- The namespace prefix of an identifier: `s.split(':')[0]`. -/
def idPrefix (s : String) : String := (splitChar ':' s).head!

/-- The classifier applied by the backfill job to one identifier string:
`true` means the prefix names a normalizer-native source (the identifier is
an "other identifier"), `false` means it defaults to an xref. -/
def classifyId (s : String) : Bool := normalizerSrcs.contains (idPrefix s)

/-- `_add_xrefs_other_ids`: fold the identifiers found under one legacy
attribute into the running `(other_ids, xrefs)` pair; a missing attribute or
a null marker contributes nothing. -/
def addXrefsOtherIds (av : Option AttrVal) (acc : List String × List String) :
    List String × List String :=
  match av with
  | some (AttrVal.l ids) =>
      ids.foldl
        (fun acc i =>
          if classifyId i then (acc.1 ++ [i], acc.2) else (acc.1, acc.2 ++ [i]))
        acc
  | _ => acc

/-- The identifiers a backfill pass reads from a record, in the order the
job visits them (legacy `other_identifiers` first, then legacy `xrefs`). -/
def collectIds (it : Item) : List String × List String :=
  addXrefsOtherIds it.xrefs (addXrefsOtherIds it.other_identifiers ([], []))

/-- `update_item`: one unconditional `SET other_identifiers=:o, xrefs=:x`,
followed by a `REMOVE` of each attribute whose new list is empty.  The
returned number counts the `update_item` calls issued. -/
def updateItem (it : Item) (o x : List String) : Item × Nat :=
  let it1 := { it with
    other_identifiers := some (AttrVal.l o), xrefs := some (AttrVal.l x) }
  let (it2, w2) :=
    if x = [] then ({ it1 with xrefs := none }, 1) else (it1, 0)
  let (it3, w3) :=
    if o = [] then ({ it2 with other_identifiers := none }, 1) else (it2, 0)
  (it3, 1 + w2 + w3)

/-- The scan filter plus identity test of `update_xrefs_other_ids`: records
whose `src_name` is `ChEMBL` are excluded by the DynamoDB filter expression,
and only items whose key contains `##identity` are processed. -/
def backfillGuard (it : Item) : Bool :=
  pyContains it.label_and_type "##identity" && it.src_name ≠ "ChEMBL"

/-- One record's worth of `update_xrefs_other_ids`: reclassify and rewrite,
returning the stored item and the number of writes issued for it. -/
def backfillItem (it : Item) : Item × Nat :=
  if backfillGuard it then
    let (o, x) := collectIds it
    updateItem it o x
  else (it, 0)

/-- The whole backfill job over a store (pagination elided: the job visits
every stored record exactly once per run). -/
def backfillRun (store : List Item) : List Item × Nat :=
  store.foldr
    (fun it (acc : List Item × Nat) =>
      let (it', w) := backfillItem it
      (it' :: acc.1, w + acc.2))
    ([], 0)

/-- Boolean list disjointness used to state the `other_identifiers ∩ xrefs`
invariant. -/
def disjB (o x : List String) : Bool := o.all (fun s => !(x.contains s))

/-! ## The Wikidata adapter (`therapy/etl/wikidata.py`) -/

/-- One decoded row of the Wikidata SPARQL result, with the optional fields
the adapter reads. -/
structure WdRecord : Type where
  item : String
  itemLabel : Option String
  aliasStr : Option String
  casRegistry : Option String
  pubchemCompound : Option String
  pubchemSubstance : Option String
  chembl : Option String
  rxnorm : Option String
  drugbank : Option String
deriving DecidableEq, Repr

/-- Modelled from the spec: the key iteration order of
`IDENTIFIER_PREFIXES` from the missing `therapy/etl/base.py` (one key per
optional identifier variable of the adapter's SPARQL query). -/
def wdKeys : List String :=
  ["casRegistry", "pubchemCompound", "pubchemSubstance", "chembl", "rxnorm",
   "drugbank"]

/-- Optional field of a raw record addressed by its `IDENTIFIER_PREFIXES`
key (`record[key]` guarded by `key in record`). -/
def wdField (r : WdRecord) (key : String) : Option String :=
  if key = "casRegistry" then r.casRegistry
  else if key = "pubchemCompound" then r.pubchemCompound
  else if key = "pubchemSubstance" then r.pubchemSubstance
  else if key = "chembl" then r.chembl
  else if key = "rxnorm" then r.rxnorm
  else if key = "drugbank" then r.drugbank
  else none

/-- Modelled from the spec: `IDENTIFIER_PREFIXES` of the missing
`therapy/etl/base.py` maps each query key — and, per §4.2, the internal
source name to which the CAS-registry key is remapped — to its registered
namespace prefix. -/
def identifierPrefix (key : String) : String :=
  if key = "casRegistry" ∨ key = "ChemIDplus" then "chemidplus"
  else if key = "pubchemCompound" then "pubchem.compound"
  else if key = "pubchemSubstance" then "pubchem.substance"
  else if key = "chembl" then "chembl"
  else if key = "rxnorm" then "rxcui"
  else if key = "drugbank" then "drugbank"
  else ""

/-- Modelled from the spec: `SourceIDAfterNamespace` of the missing
`therapy/schemas.py` — the standardized per-source token placed between the
namespace prefix and the raw local id (empty for sources whose raw ids are
already complete). -/
def sourceIdToken (keyUpper : String) : String :=
  if keyUpper = "WIKIDATA" then "Q"
  else if keyUpper = "DRUGBANK" then "DB"
  else if keyUpper = "CHEMBL" then "CHEMBL"
  else ""

/-- Modelled from the spec: `normalizer_srcs` of the Wikidata adapter is the
set of `SourceName` member names (upper-case) of the sources the normalizer
ingests. -/
def wdNormalizerSrcs : List String :=
  ["CHEMBL", "CHEMIDPLUS", "DRUGBANK", "RXNORM", "WIKIDATA"]

/-- Processing of one identifier key inside `Wikidata._transform_data`:
remap the CAS-registry key, classify by source-name membership, format, and
append to `other_ids` or `xrefs`. -/
def wdStep (r : WdRecord) (acc : List String × List String) (key : String) :
    List String × List String :=
  match wdField r key with
  | none => acc
  | some v =>
      let key := if pyUpper key = "CASREGISTRY" then "ChemIDplus" else key
      if wdNormalizerSrcs.contains (pyUpper key) then
        let fmted :=
          if key ≠ "chembl" then
            identifierPrefix key ++ ":" ++ sourceIdToken (pyUpper key) ++ v
          else identifierPrefix key ++ ":" ++ v
        (acc.1 ++ [fmted], acc.2)
      else
        (acc.1, acc.2 ++ [identifierPrefix key ++ ":" ++ v])

/-- The `other_ids` / `xrefs` pair built for a newly seen Wikidata entity. -/
def wikidataIds (r : WdRecord) : List String × List String :=
  wdKeys.foldl (wdStep r) ([], [])

/-- An in-memory Wikidata item as assembled by `_transform_data` and stored
by `_load_therapy`. -/
structure WdItem : Type where
  label_and_type : String
  concept_id : String
  src_name : String
  other_identifiers : Option (List String)
  xrefs : Option (List String)
  label : Option String
  aliases : Option (List String)
deriving DecidableEq, Repr

/-- The concept id of a raw record:
`record['item'].split('/')[-1]` under the `wikidata` namespace prefix. -/
def wdConceptId (r : WdRecord) : String :=
  "wikidata:" ++ (splitChar '/' r.item).getLast!

/-- The fresh item built when a concept id is first seen: both identifier
attributes are always present (possibly as empty lists). -/
def wdMakeItem (r : WdRecord) : WdItem :=
  { label_and_type := pyLower (wdConceptId r) ++ "##identity"
    concept_id := wdConceptId r
    src_name := "Wikidata"
    other_identifiers := some (wikidataIds r).1
    xrefs := some (wikidataIds r).2
    label := r.itemLabel
    aliases := none }

/-- Replace the entry stored under a key of an association list in place. -/
def dictUpdate {β : Type} (d : List (String × β)) (k : String) (f : β → β) :
    List (String × β) :=
  d.map (fun e => if e.1 = k then (k, f e.2) else e)

/-- One raw record's contribution to the in-memory `items` dict: create the
item on first sight, then append the row's alias (if any) to the item's
alias list. -/
def wdAccum (items : List (String × WdItem)) (r : WdRecord) :
    List (String × WdItem) :=
  let cid := wdConceptId r
  let items :=
    if (dictGet items cid).isSome then items else items ++ [(cid, wdMakeItem r)]
  match r.aliasStr with
  | some a =>
      dictUpdate items cid
        (fun it => { it with aliases := some ((it.aliases.getD []) ++ [a]) })
  | none => items

/-- `Wikidata._load_therapy` restricted to the identity item it stores:
exact-deduplicate the aliases (`list(set(...))`; Python set order is
unspecified, modelled here by `List.dedup`), then drop the whole attribute
when the distinct case-folded values exceed 20. -/
def wdLoadTherapy (it : WdItem) : WdItem :=
  match it.aliases with
  | some l =>
      let l' := l.dedup
      if 20 < cfCount l' then { it with aliases := none }
      else { it with aliases := some l' }
  | none => it

/-- `Wikidata._transform_data`: group raw records into items, then store
each item. -/
def wdTransform (records : List WdRecord) : List WdItem :=
  ((records.foldl wdAccum []).map (fun e => wdLoadTherapy e.2))

/-! ## The DrugBank adapter (`therapy/etl/drugbank.py`) -/

/-- The in-progress record dict assembled by `DrugBank._transform_data`. -/
structure DbParams : Type where
  label_and_type : Option String
  concept_id : Option String
  label : Option String
  approval_status : Option String
  aliases : Option (List String)
  other_identifiers : Option (List String)
  trade_names : Option (List String)
  src_name : String
deriving DecidableEq, Repr

/-- `DrugBank._load_synonyms`: append each english synonym not already
present (exact string comparison). -/
def dbLoadSynonyms (aliases : List String) (syns : List (String × String)) :
    List String :=
  syns.foldl
    (fun acc e =>
      if ¬ e.1 ∈ acc ∧ e.2 = "english" then acc ++ [e.1] else acc)
    aliases

/-- The attribute filter of `DrugBank._load_therapy` for `trade_names` and
`aliases`: delete the attribute when its list is empty or has more than 20
distinct case-folded values. -/
def capField (o : Option (List String)) : Option (List String) :=
  match o with
  | some l => if l = [] ∨ 20 < cfCount l then none else some l
  | none => none

/-- `DrugBank._load_therapy`: drop a falsy `other_identifiers`, apply the
fan-out cap to `trade_names` and `aliases`, and store the item. -/
def dbLoadTherapy (p : DbParams) : DbParams :=
  let p :=
    if p.other_identifiers.getD [] = [] then
      { p with other_identifiers := none }
    else p
  { p with trade_names := capField p.trade_names,
           aliases := capField p.aliases }

/-! ## The RxNorm multi-pass linker (`therapy/etl/rxnorm.py`) -/

/-- The columns of one RXNCONSO row that the transform reads:
`row[0]` (rxcui), `row[11]` (source), `row[12]` (term type), `row[13]`
(code), `row[14]` (term string), `row[17]` (cvf flag). -/
structure RxRow : Type where
  rxcui : String
  sab : String
  tty : String
  code : String
  str : String
  cvf : String
deriving DecidableEq, Repr

/-- An in-progress RxNorm therapy record (a Python dict; absent keys are
`none`). -/
structure RxRecord : Type where
  concept_id : String
  label : Option String
  approval_ratings : Option (List String)
  aliases : Option (List String)
  trade_names : Option (List String)
  xrefs : Option (List String)
  associated_with : Option (List String)
  PIN : Option String
deriving DecidableEq, Repr

/-- A fresh record holding only its concept id. -/
def emptyRxRecord (cid : String) : RxRecord :=
  ⟨cid, none, none, none, none, none, none, none⟩

/-- `ALIASES` from `rxnorm.py`. -/
def rxALIASES : List String :=
  ["SYN", "SY", "TMSY", "PM", "GN", "PT", "PEP", "CD", "ET", "RXN_PT"]

/-- `TRADE_NAMES` from `rxnorm.py`. -/
def rxTRADE_NAMES : List String := ["BD", "BN", "SBD"]

/-- `RXNORM_XREFS` from `rxnorm.py`. -/
def RXNORM_XREFS : List String :=
  ["ATC", "CVX", "DRUGBANK", "MMSL", "MSH", "MTHCMSFRF", "MTHSPL", "RXNORM",
   "USP", "VANDF"]

/-- Modelled from the spec: `XREF_SOURCES` of the missing
`therapy/__init__.py` — the upper-cased names of the sources the normalizer
itself ingests. -/
def XREF_SOURCES : List String :=
  ["CHEMBL", "CHEMIDPLUS", "DRUGBANK", "RXNORM", "WIKIDATA"]

/-- Modelled from the spec: `ASSOC_WITH_SOURCES` of the missing
`therapy/__init__.py` — the registered non-native vocabularies an RxNorm
row may reference. -/
def ASSOC_WITH_SOURCES : List String :=
  ["ATC", "CVX", "MMSL", "MSH", "MTHCMSFRF", "UNII", "USP", "VANDF"]

/-- Modelled from the spec: `NamespacePrefix[...].value` of the missing
`therapy/schemas.py` for the source names reachable from the RxNorm
transform. -/
def namespacePrefixValue (name : String) : String :=
  if name = "RXNORM" then "rxcui"
  else if name = "CHEMBL" then "chembl"
  else if name = "CHEMIDPLUS" then "chemidplus"
  else if name = "DRUGBANK" then "drugbank"
  else if name = "WIKIDATA" then "wikidata"
  else if name = "ATC" then "atc"
  else if name = "CVX" then "cvx"
  else if name = "MMSL" then "mmsl"
  else if name = "MSH" then "mesh"
  else if name = "MTHCMSFRF" then "mthcmsfrf"
  else if name = "UNII" then "unii"
  else if name = "USP" then "usp"
  else if name = "VANDF" then "vandf"
  else ""

/-- Modelled from the spec: `ApprovalRating.RXNORM_PRESCRIBABLE.value` of
the missing `therapy/schemas.py`. -/
def RXNORM_PRESCRIBABLE : String := "rxnorm_prescribable"

/-- The mutable side tables of one transform invocation plus the records
dict, all insertion-ordered. -/
structure RxState : Type where
  records : List (String × RxRecord)
  ingredient_to_brands : List (String × List String)
  precise_ingredient_to_brand : List (String × List String)
  ingredient_to_sbdf : List (String × List String)
  brand_to_concept_id : List (String × String)
deriving DecidableEq, Repr

/-- The empty transform state. -/
def initRxState : RxState := ⟨[], [], [], [], []⟩

/-- `RxNorm._get_brands`: parse a semantic-branded-drug-component string and
record its ingredient(s) in the `ingredient_to_brands` table.  Note the
argument order of the `_add_term_to_field` calls in the source: the table
ends up keyed by the brand, holding ingredient names. -/
def getBrands (term : String) (tbl : List (String × List String)) :
    List (String × List String) :=
  let ingredientsBrand := stripStrength term
  let brand := lastBracket term
  let ingredients := pyReplace ingredientsBrand ("[" ++ brand ++ "]")
  if pyContainsChar '/' ingredients then
    (splitChar '/' ingredients).foldl
      (fun t ing => addTermToField t brand (pyStrip ing)) tbl
  else
    addTermToField tbl brand (pyStrip ingredients)

/-- `RxNorm._add_str_field`: route the row's term string into the record
(label / aliases / trade names), the SBDF table, or the precise-ingredient
table. -/
def addStrField (row : RxRow) (record : RxRecord)
    (precise sbdfs : List (String × List String)) (drugForms : List String) :
    RxRecord × List (String × List String) × List (String × List String) :=
  let term := row.str
  let termType := row.tty
  let source := row.sab
  let record :=
    if (termType = "IN" ∨ termType = "PIN") ∧ source = "RXNORM" then
      let record := { record with label := some term }
      if row.cvf = "4096" then
        { record with approval_ratings := some [RXNORM_PRESCRIBABLE] }
      else record
    else if termType ∈ rxALIASES then
      { record with aliases := addTermOpt record.aliases term }
    else if termType ∈ rxTRADE_NAMES then
      { record with trade_names := addTermOpt record.trade_names term }
    else record
  if source = "RXNORM" then
    if termType = "SBDF" then
      let brand := lastBracket term
      let ingredientStrength := pyReplace term ("[" ++ brand ++ "]")
      match drugForms.find? (fun df => pyContains ingredientStrength df) with
      | some df =>
          (record, precise,
           addTermToField sbdfs (pyLower (pyStrip (pyReplace ingredientStrength df)))
             brand)
      | none => (record, precise, sbdfs)
    else (record, precise, sbdfs)
  else if source = "MSH" then
    if termType = "MH" then ({ record with PIN := some row.code }, precise, sbdfs)
    else if termType = "PEP" then
      (record, addTermToField precise row.code term, sbdfs)
    else (record, precise, sbdfs)
  else (record, precise, sbdfs)

/-- `RxNorm._add_xref_assoc`: add a cross-reference or associated
identifier, skipping the concept's own id. -/
def addXrefAssoc (row : RxRow) (record : RxRecord) : RxRecord :=
  let ref := row.sab
  let lui := row.code
  if ref ≠ "" ∧ lui ≠ "NOCODE" then
    let xrefAssoc := if ref = "MTHSPL" then "UNII" else pyUpper ref
    if xrefAssoc ∈ XREF_SOURCES then
      let sourceId := namespacePrefixValue xrefAssoc ++ ":" ++ lui
      if sourceId ≠ record.concept_id then
        { record with xrefs := addTermOpt record.xrefs sourceId }
      else record
    else if xrefAssoc ∈ ASSOC_WITH_SOURCES then
      let sourceId := namespacePrefixValue xrefAssoc ++ ":" ++ lui
      { record with associated_with := addTermOpt record.associated_with sourceId }
    else record
  else record

/-- One row of the pass-1 sweep in `RxNorm._transform_data`. -/
def processRow (drugForms : List String) (st : RxState) (row : RxRow) :
    RxState :=
  if row.sab ∈ RXNORM_XREFS then
    let cid := namespacePrefixValue "RXNORM" ++ ":" ++ row.rxcui
    let st :=
      if row.tty = "BN" ∧ row.sab = "RXNORM" then
        { st with brand_to_concept_id := dictSet st.brand_to_concept_id row.str cid }
      else st
    if row.tty = "SBDC" ∧ row.sab = "RXNORM" then
      { st with ingredient_to_brands := getBrands row.str st.ingredient_to_brands }
    else
      let rec0 :=
        match dictGet st.records cid with
        | some r => r
        | none => emptyRxRecord cid
      let (rec1, precise1, sbdfs1) :=
        addStrField row rec0 st.precise_ingredient_to_brand
          st.ingredient_to_sbdf drugForms
      let rec2 := addXrefAssoc row rec1
      { st with records := dictSet st.records cid rec2,
                precise_ingredient_to_brand := precise1,
                ingredient_to_sbdf := sbdfs1 }
  else st

/-- Pass 1: sweep all rows. -/
def rxnormPass1 (drugForms : List String) (rows : List RxRow) : RxState :=
  rows.foldl (processRow drugForms) initRxState

/-- Add one trade name to a record via `_add_term_to_field`. -/
def addTradeName (record : RxRecord) (tn : String) : RxRecord :=
  { record with trade_names := addTermOpt record.trade_names tn }

/-- `RxNorm._get_trade_names`: collect the candidate labels, match them
(lower-cased) against the keys of the brand table, and union the matched
values into `trade_names`; finally consult the SBDF table under the
record's lower-cased label.  Python iterates the matched values as a `set`
(order unspecified); the model fixes first-occurrence order. -/
def getTradeNames (record : RxRecord)
    (precise ingredientBrands sbdfs : List (String × List String)) :
    RxRecord :=
  let recordLabel := pyLower (record.label.getD "")
  let labels :=
    recordLabel ::
      (match record.PIN with
       | some p =>
           (match dictGet precise p with
            | some pins => pins.map pyLower
            | none => [])
       | none => [])
  let record :=
    labels.foldl
      (fun record lbl =>
        let tradeNameLists :=
          (ingredientBrands.filter (fun e => lbl = pyLower e.1)).map (·.2)
        let uq := tradeNameLists.flatten.dedup
        uq.foldl addTradeName record)
      record
  match dictGet sbdfs recordLabel with
  | some tns => tns.foldl addTradeName record
  | none => record

/-- A brand-association (`rx_brand`) lookup record. -/
structure RxBrandItem : Type where
  label_and_type : String
  concept_id : String
  src_name : String
  item_type : String
deriving DecidableEq, Repr

/-- `RxNorm._load_brand_concepts`: for each trade name whose exact text is a
key of the brand table (with a truthy value), emit an `rx_brand` lookup
record whose key embeds the brand's own concept id and whose `concept_id`
is the current record's. -/
def loadBrandConcepts (record : RxRecord) (brands : List (String × String)) :
    List RxBrandItem :=
  match record.trade_names with
  | some tns =>
      tns.filterMap
        (fun tn =>
          match dictGet brands tn with
          | some cid =>
              if cid ≠ "" then
                some ⟨cid ++ "##rx_brand", record.concept_id, "RxNorm", "rx_brand"⟩
              else none
          | none => none)
  | none => []

/-- Pass 2 of `RxNorm._transform_data`: for each record that acquired a
label, resolve trade names, emit brand-association records, delete the
scratch `PIN` key, and hand the record to the sink; records with no label
are skipped.  (The stray `breakpoint()` in the source is a debugger no-op.) -/
def rxnormPass2 (precise ingredientBrands sbdfs : List (String × List String))
    (brands : List (String × String)) :
    List (String × RxRecord) → List RxRecord × List RxBrandItem
  | [] => ([], [])
  | e :: rest =>
      let tail := rxnormPass2 precise ingredientBrands sbdfs brands rest
      if e.2.label.isSome then
        let rec1 := getTradeNames e.2 precise ingredientBrands sbdfs
        let items := loadBrandConcepts rec1 brands
        let rec2 := { rec1 with PIN := none }
        (rec2 :: tail.1, items ++ tail.2)
      else tail

/-- The complete RxNorm transform: the pass-1 state, the records loaded
into the sink, and the emitted `rx_brand` lookup records. -/
def rxnormTransform (drugForms : List String) (rows : List RxRow) :
    RxState × List RxRecord × List RxBrandItem :=
  let st := rxnormPass1 drugForms rows
  (st, rxnormPass2 st.precise_ingredient_to_brand st.ingredient_to_brands
         st.ingredient_to_sbdf st.brand_to_concept_id st.records)

/-- The three rows of the spec's RxNorm linker example. -/
def exRow1 : RxRow := ⟨"1", "RXNORM", "IN", "1", "Aspirin", ""⟩

/-- Second example row: the semantic branded drug component. -/
def exRow2 : RxRow := ⟨"2", "RXNORM", "SBDC", "2", "Aspirin 325 MG [Bufferin]", ""⟩

/-- Third example row: the brand name. -/
def exRow3 : RxRow := ⟨"3", "RXNORM", "BN", "3", "Bufferin", ""⟩

/-- The example row set of the spec. -/
def exRows : List RxRow := [exRow1, exRow2, exRow3]

/-! ## Auxiliary notions used to state the claims -/

/-- The identifier strings a backfill read extracts from one stored
attribute (empty for an absent attribute or a null marker). -/
def readIds (av : Option AttrVal) : List String :=
  match av with
  | some (AttrVal.l xs) => xs
  | _ => []

/-- First character of a string, used to separate namespace families. -/
def firstChar (s : String) : Option Char := s.data.head?

/-- An already-migrated identity record: one native identifier, one
non-native one (the fixed point of the backfill classification). -/
def c6Item : Item :=
  { label_and_type := "rxcui:1##identity"
    concept_id := "rxcui:1"
    src_name := "RxNorm"
    other_identifiers := some (AttrVal.l ["chembl:CHEMBL25"])
    xrefs := some (AttrVal.l ["atc:B01AC06"])
    label := some "Aspirin"
    aliases := none
    trade_names := none
    approval_status := none }

/-- A DrugBank record whose synonyms differ only in casing. -/
def c9Params : DbParams :=
  { label_and_type := some "drugbank:db00001##identity"
    concept_id := some "drugbank:DB00001"
    label := some "Aspirin"
    approval_status := none
    aliases := some (dbLoadSynonyms [] [("Aspirin", "english"), ("ASPIRIN", "english")])
    other_identifiers := some []
    trade_names := some []
    src_name := "DrugBank" }

/-- Twenty-one pairwise distinct one-letter alias strings. -/
def list21 : List String :=
  ["a", "b", "c", "d", "e", "f", "g", "h", "i", "j", "k", "l", "m", "n", "o",
   "p", "q", "r", "s", "t", "u"]

/-- Twenty pairwise distinct one-letter trade-name strings. -/
def list20 : List String :=
  ["a", "b", "c", "d", "e", "f", "g", "h", "i", "j", "k", "l", "m", "n", "o",
   "p", "q", "r", "s", "t"]

/-- A DrugBank record with 21 distinct case-folded aliases and 20 distinct
case-folded trade names. -/
def c3Params : DbParams :=
  { label_and_type := some "drugbank:db00002##identity"
    concept_id := some "drugbank:DB00002"
    label := some "X"
    approval_status := none
    aliases := some list21
    other_identifiers := some []
    trade_names := some list20
    src_name := "DrugBank" }

/-- A Wikidata item with 21 distinct case-folded aliases. -/
def c3WdItem : WdItem :=
  { label_and_type := "wikidata:q1##identity"
    concept_id := "wikidata:Q1"
    src_name := "Wikidata"
    other_identifiers := some []
    xrefs := some []
    label := some "X"
    aliases := some list21 }

/-- Invariant separating the Wikidata adapter's native-prefixed
`other_ids` entries from its `pubchem`-prefixed `xrefs` entries by first
character. -/
def WdInv (p : List String × List String) : Prop :=
  (∀ s ∈ p.1, firstChar s ≠ some 'p') ∧ (∀ s ∈ p.2, firstChar s = some 'p')

/-- Presence of both identifier attributes on a Wikidata item. -/
def HasIdAttrs (it : WdItem) : Prop :=
  it.other_identifiers.isSome = true ∧ it.xrefs.isSome = true

end TherapyNorm

namespace TherapyNorm

/-! # Helper lemmas -/

/-- Characterization of the classification fold of the backfill job. -/
theorem foldl_classify (ids : List String) : ∀ acc : List String × List String,
    ids.foldl
      (fun acc i =>
        if classifyId i then (acc.1 ++ [i], acc.2) else (acc.1, acc.2 ++ [i]))
      acc
      = (acc.1 ++ ids.filter classifyId,
         acc.2 ++ ids.filter (fun s => !classifyId s)) := by
  induction ids with
  | nil => intro acc; simp
  | cons i t ih =>
      intro acc
      by_cases h : classifyId i <;>
        simp [List.foldl_cons, h, ih, List.filter_cons, List.append_assoc]

/-- `_add_xrefs_other_ids` appends the native / non-native filterings of the
attribute's identifiers. -/
theorem addXrefsOtherIds_eq (av : Option AttrVal) (acc : List String × List String) :
    addXrefsOtherIds av acc
      = (acc.1 ++ (readIds av).filter classifyId,
         acc.2 ++ (readIds av).filter (fun s => !classifyId s)) := by
  match av with
  | none => simp [addXrefsOtherIds, readIds]
  | some (AttrVal.l ids) => simp [addXrefsOtherIds, readIds, foldl_classify]
  | some AttrVal.nullMarker => simp [addXrefsOtherIds, readIds]

/-- The classification pass partitions the identifiers read from the two
legacy attributes. -/
theorem collectIds_eq (it : Item) :
    collectIds it
      = ((readIds it.other_identifiers ++ readIds it.xrefs).filter classifyId,
         (readIds it.other_identifiers ++ readIds it.xrefs).filter
           (fun s => !classifyId s)) := by
  simp [collectIds, addXrefsOtherIds_eq, List.filter_append]

/-- Field-level description of one `update_item` invocation. -/
theorem updateItem_spec (it : Item) (o x : List String) :
    (updateItem it o x).1.other_identifiers
        = (if o = [] then none else some (AttrVal.l o))
    ∧ (updateItem it o x).1.xrefs = (if x = [] then none else some (AttrVal.l x))
    ∧ (updateItem it o x).1.label_and_type = it.label_and_type
    ∧ (updateItem it o x).1.concept_id = it.concept_id
    ∧ (updateItem it o x).1.src_name = it.src_name
    ∧ (updateItem it o x).1.label = it.label
    ∧ (updateItem it o x).1.aliases = it.aliases
    ∧ (updateItem it o x).1.trade_names = it.trade_names
    ∧ (updateItem it o x).1.approval_status = it.approval_status := by
  by_cases ho : o = [] <;> by_cases hx : x = [] <;> simp [updateItem, ho, hx]

/-- Reading back a written (or removed) attribute yields the written list. -/
theorem readIds_ite (o : List String) :
    readIds (if o = [] then none else some (AttrVal.l o)) = o := by
  by_cases h : o = [] <;> simp [readIds, h]

/-- A filter is idempotent. -/
theorem filter_self_classify (p : String → Bool) (l : List String) :
    (l.filter p).filter p = l.filter p := by
  rw [List.filter_filter]
  simp

/-- Filtering by a predicate after its negation yields nothing. -/
theorem filter_not_classify (p : String → Bool) (l : List String) :
    (l.filter (fun s => !p s)).filter p = [] := by
  rw [List.filter_filter]
  simp [List.filter_eq_nil_iff]

/-- Filtering by a negation after the predicate yields nothing. -/
theorem filter_not_self (p : String → Bool) (l : List String) :
    (l.filter p).filter (fun s => !p s) = [] := by
  rw [List.filter_filter]
  simp [List.filter_eq_nil_iff]

/-- The scan guard only depends on attributes `update_item` never
touches. -/
theorem backfillGuard_update (it : Item) (o x : List String) :
    backfillGuard (updateItem it o x).1 = backfillGuard it := by
  have h := updateItem_spec it o x
  simp [backfillGuard, h.2.2.1, h.2.2.2.2.1]

/-- Per-record idempotence of the backfill job. -/
theorem backfillItem_idem (it : Item) :
    backfillItem (backfillItem it).1 = backfillItem it := by
  by_cases hg : backfillGuard it
  · have h1 : backfillItem it = updateItem it (collectIds it).1 (collectIds it).2 := by
      simp [backfillItem, hg]
    obtain ⟨o, x, hox⟩ : ∃ o x, collectIds it = (o, x) := ⟨_, _, rfl⟩
    have ho : o = (readIds it.other_identifiers ++ readIds it.xrefs).filter classifyId := by
      have := collectIds_eq it
      rw [hox] at this
      exact congrArg Prod.fst this
    have hx : x = (readIds it.other_identifiers ++ readIds it.xrefs).filter
        (fun s => !classifyId s) := by
      have := collectIds_eq it
      rw [hox] at this
      exact congrArg Prod.snd this
    have hspec := updateItem_spec it o x
    have hg2 : backfillGuard (updateItem it o x).1 = true := by
      rw [backfillGuard_update]; exact hg
    have hcol2 : collectIds (updateItem it o x).1 = (o, x) := by
      rw [collectIds_eq, hspec.1, hspec.2.1, readIds_ite, readIds_ite]
      generalize hl : readIds it.other_identifiers ++ readIds it.xrefs = l at ho hx
      subst ho; subst hx
      rw [List.filter_append, List.filter_append,
        filter_self_classify, filter_not_classify, filter_not_self,
        filter_self_classify]
      simp
    have hupd : updateItem (updateItem it o x).1 o x = updateItem it o x := by
      have hspec2 := updateItem_spec (updateItem it o x).1 o x
      have heq : (updateItem (updateItem it o x).1 o x).1 = (updateItem it o x).1 := by
        cases h3 : (updateItem (updateItem it o x).1 o x).1
        cases h4 : (updateItem it o x).1
        simp_all
      have hw : (updateItem (updateItem it o x).1 o x).2 = (updateItem it o x).2 := by
        by_cases h5 : o = [] <;> by_cases h6 : x = [] <;> simp [updateItem, h5, h6]
      calc updateItem (updateItem it o x).1 o x
          = ((updateItem (updateItem it o x).1 o x).1,
             (updateItem (updateItem it o x).1 o x).2) := rfl
        _ = ((updateItem it o x).1, (updateItem it o x).2) := by rw [heq, hw]
    rw [h1, hox]
    have : backfillItem (updateItem it o x).1
        = updateItem (updateItem it o x).1 (collectIds (updateItem it o x).1).1
            (collectIds (updateItem it o x).1).2 := by
      simp [backfillItem, hg2]
    rw [this, hcol2, hupd]
  · simp [backfillItem, hg]

/-- A whole backfill run maps `backfillItem` over the store and sums the
write counts. -/
theorem backfillRun_eq (store : List Item) :
    backfillRun store
      = (store.map (fun it => (backfillItem it).1),
         (store.map (fun it => (backfillItem it).2)).sum) := by
  induction store with
  | nil => simp [backfillRun]
  | cons it t ih =>
      simp only [backfillRun, List.foldr_cons, List.map_cons, List.sum_cons] at ih ⊢
      rw [ih]

/-- Members of the reclassified `other_ids` list carry a native prefix. -/
theorem mem_collect_fst (it : Item) (s : String)
    (h : s ∈ (collectIds it).1) : classifyId s = true := by
  rw [collectIds_eq] at h
  exact List.of_mem_filter h

/-- Members of the reclassified `xrefs` list carry a non-native prefix. -/
theorem mem_collect_snd (it : Item) (s : String)
    (h : s ∈ (collectIds it).2) : classifyId s = false := by
  rw [collectIds_eq] at h
  have := List.of_mem_filter h
  simpa using this

/-- Appending two string values appends their character data. -/
theorem string_data_append (a b : String) : (a ++ b).data = a.data ++ b.data := by
  cases a; cases b; rfl

/-- The first character of an append is the left part's first character. -/
theorem firstChar_append2 (a b : String) (c : Char)
    (h : a.data.head? = some c) : firstChar (a ++ b) = some c := by
  rw [firstChar, string_data_append]
  cases hd : a.data with
  | nil => rw [hd] at h; cases h
  | cons x xs =>
      rw [hd] at h
      simp only [List.head?] at h
      simp [hd, h]

/-- The invariant is preserved when a non-`p` string joins `other_ids`. -/
theorem wdInv_push_other (acc : List String × List String) (h : WdInv acc)
    (s : String) (hs : firstChar s ≠ some 'p') : WdInv (acc.1 ++ [s], acc.2) := by
  refine ⟨?_, h.2⟩
  intro t ht
  rcases List.mem_append.mp ht with h1 | h1
  · exact h.1 t h1
  · rw [List.mem_singleton.mp h1]; exact hs

/-- The invariant is preserved when a `p`-headed string joins `xrefs`. -/
theorem wdInv_push_xref (acc : List String × List String) (h : WdInv acc)
    (s : String) (hs : firstChar s = some 'p') : WdInv (acc.1, acc.2 ++ [s]) := by
  refine ⟨h.1, ?_⟩
  intro t ht
  rcases List.mem_append.mp ht with h1 | h1
  · exact h.2 t h1
  · rw [List.mem_singleton.mp h1]; exact hs

/-- The CAS-registry key contributes a `chemidplus`-prefixed other id. -/
theorem wdStep_inv_cas (r : WdRecord) (acc : List String × List String)
    (h : WdInv acc) : WdInv (wdStep r acc "casRegistry") := by
  cases hv : wdField r "casRegistry" with
  | none => simpa [wdStep, hv] using h
  | some v =>
      have he : wdStep r acc "casRegistry"
          = (acc.1 ++ ["chemidplus" ++ ":" ++ "" ++ v], acc.2) := by
        simp [wdStep, hv, pyUpper, pyUpperChar, wdNormalizerSrcs,
          identifierPrefix, sourceIdToken]
      rw [he]
      refine wdInv_push_other acc h _ ?_
      intro heq
      rw [firstChar_append2 _ _ 'c' (by decide)] at heq
      simp at heq

/-- The PubChem-compound key contributes a `pubchem.compound` xref. -/
theorem wdStep_inv_pcc (r : WdRecord) (acc : List String × List String)
    (h : WdInv acc) : WdInv (wdStep r acc "pubchemCompound") := by
  cases hv : wdField r "pubchemCompound" with
  | none => simpa [wdStep, hv] using h
  | some v =>
      have he : wdStep r acc "pubchemCompound"
          = (acc.1, acc.2 ++ ["pubchem.compound" ++ ":" ++ v]) := by
        simp [wdStep, hv, pyUpper, pyUpperChar, wdNormalizerSrcs,
          identifierPrefix, sourceIdToken]
      rw [he]
      exact wdInv_push_xref acc h _ (firstChar_append2 _ _ 'p' (by decide))

/-- The PubChem-substance key contributes a `pubchem.substance` xref. -/
theorem wdStep_inv_pcs (r : WdRecord) (acc : List String × List String)
    (h : WdInv acc) : WdInv (wdStep r acc "pubchemSubstance") := by
  cases hv : wdField r "pubchemSubstance" with
  | none => simpa [wdStep, hv] using h
  | some v =>
      have he : wdStep r acc "pubchemSubstance"
          = (acc.1, acc.2 ++ ["pubchem.substance" ++ ":" ++ v]) := by
        simp [wdStep, hv, pyUpper, pyUpperChar, wdNormalizerSrcs,
          identifierPrefix, sourceIdToken]
      rw [he]
      exact wdInv_push_xref acc h _ (firstChar_append2 _ _ 'p' (by decide))

/-- The ChEMBL key contributes a `chembl`-prefixed other id. -/
theorem wdStep_inv_chembl (r : WdRecord) (acc : List String × List String)
    (h : WdInv acc) : WdInv (wdStep r acc "chembl") := by
  cases hv : wdField r "chembl" with
  | none => simpa [wdStep, hv] using h
  | some v =>
      have he : wdStep r acc "chembl"
          = (acc.1 ++ ["chembl" ++ ":" ++ v], acc.2) := by
        simp [wdStep, hv, pyUpper, pyUpperChar, wdNormalizerSrcs,
          identifierPrefix, sourceIdToken]
      rw [he]
      refine wdInv_push_other acc h _ ?_
      intro heq
      rw [firstChar_append2 _ _ 'c' (by decide)] at heq
      simp at heq

/-- The RxNorm key contributes an `rxcui`-prefixed other id. -/
theorem wdStep_inv_rxnorm (r : WdRecord) (acc : List String × List String)
    (h : WdInv acc) : WdInv (wdStep r acc "rxnorm") := by
  cases hv : wdField r "rxnorm" with
  | none => simpa [wdStep, hv] using h
  | some v =>
      have he : wdStep r acc "rxnorm"
          = (acc.1 ++ ["rxcui" ++ ":" ++ "" ++ v], acc.2) := by
        simp [wdStep, hv, pyUpper, pyUpperChar, wdNormalizerSrcs,
          identifierPrefix, sourceIdToken]
      rw [he]
      refine wdInv_push_other acc h _ ?_
      intro heq
      rw [firstChar_append2 _ _ 'r' (by decide)] at heq
      simp at heq

/-- The DrugBank key contributes a `drugbank`-prefixed other id. -/
theorem wdStep_inv_drugbank (r : WdRecord) (acc : List String × List String)
    (h : WdInv acc) : WdInv (wdStep r acc "drugbank") := by
  cases hv : wdField r "drugbank" with
  | none => simpa [wdStep, hv] using h
  | some v =>
      have he : wdStep r acc "drugbank"
          = (acc.1 ++ ["drugbank" ++ ":" ++ "DB" ++ v], acc.2) := by
        simp [wdStep, hv, pyUpper, pyUpperChar, wdNormalizerSrcs,
          identifierPrefix, sourceIdToken]
      rw [he]
      refine wdInv_push_other acc h _ ?_
      intro heq
      rw [firstChar_append2 _ _ 'd' (by decide)] at heq
      simp at heq

/-- Every entry of the Wikidata classification satisfies the first-character
invariant. -/
theorem wikidataIds_inv (r : WdRecord) : WdInv (wikidataIds r) := by
  have h0 : WdInv (([], []) : List String × List String) := by
    constructor <;> intro s hs <;> cases hs
  show WdInv (wdStep r (wdStep r (wdStep r (wdStep r (wdStep r
      (wdStep r ([], []) "casRegistry") "pubchemCompound") "pubchemSubstance")
      "chembl") "rxnorm") "drugbank")
  exact wdStep_inv_drugbank _ _ (wdStep_inv_rxnorm _ _ (wdStep_inv_chembl _ _
    (wdStep_inv_pcs _ _ (wdStep_inv_pcc _ _ (wdStep_inv_cas _ _ h0)))))

/-- A fresh Wikidata item carries both identifier attributes. -/
theorem wdMakeItem_attrs (r : WdRecord) : HasIdAttrs (wdMakeItem r) := by
  constructor <;> rfl

/-- The per-record accumulation step preserves attribute presence. -/
theorem wdAccum_inv (items : List (String × WdItem)) (r : WdRecord)
    (h : ∀ e ∈ items, HasIdAttrs e.2) :
    ∀ e ∈ wdAccum items r, HasIdAttrs e.2 := by
  rw [wdAccum]
  have hmid : ∀ e ∈ (if (dictGet items (wdConceptId r)).isSome then items
      else items ++ [(wdConceptId r, wdMakeItem r)]), HasIdAttrs e.2 := by
    by_cases hc : (dictGet items (wdConceptId r)).isSome
    · simpa [hc] using h
    · simp only [hc, if_false]
      intro e he
      rcases List.mem_append.mp he with h1 | h1
      · exact h e h1
      · rw [List.mem_singleton.mp h1]
        exact wdMakeItem_attrs r
  cases ha : r.aliasStr with
  | none => simpa using hmid
  | some a =>
      simp only []
      intro e he
      rw [dictUpdate] at he
      rcases List.mem_map.mp he with ⟨e0, he0, heq⟩
      by_cases hk : e0.1 = wdConceptId r
      · rw [← heq]
        simp only [hk, if_true]
        have := hmid e0 he0
        exact ⟨this.1, this.2⟩
      · rw [← heq]
        simp only [hk, if_false]
        exact hmid e0 he0

/-- The grouping fold preserves attribute presence from the empty dict. -/
theorem wdFold_inv (records : List WdRecord) :
    ∀ e ∈ records.foldl wdAccum [], HasIdAttrs e.2 := by
  have hgen : ∀ (rs : List WdRecord) (items : List (String × WdItem)),
      (∀ e ∈ items, HasIdAttrs e.2) → ∀ e ∈ rs.foldl wdAccum items, HasIdAttrs e.2 := by
    intro rs
    induction rs with
    | nil => intro items h; simpa using h
    | cons r t ih =>
        intro items h
        rw [List.foldl_cons]
        exact ih _ (wdAccum_inv items r h)
  exact hgen records [] (by intro e he; cases he)

/-- The Wikidata store step only touches the alias attribute. -/
theorem wdLoadTherapy_attrs (it : WdItem) (h : HasIdAttrs it) :
    HasIdAttrs (wdLoadTherapy it) := by
  rw [wdLoadTherapy]
  cases it.aliases with
  | none => exact h
  | some l =>
      by_cases hc : 20 < cfCount l.dedup <;> simp only [hc, if_true, if_false] <;>
        exact ⟨h.1, h.2⟩

/-- Finite-set image of a mapped list. -/
theorem map_toFinset_eq (f : String → String) (m : List String) :
    (m.map f).toFinset = m.toFinset.image f := by
  induction m with
  | nil => simp
  | cons a t ih => simp [ih]

/-- Exact deduplication never changes the number of distinct case-folded
values. -/
theorem cfCount_dedup (l : List String) : cfCount l.dedup = cfCount l := by
  have h1 : l.dedup.toFinset = l.toFinset := by
    ext a; simp [List.mem_dedup]
  rw [cfCount, cfCount, ← List.card_toFinset, ← List.card_toFinset,
    map_toFinset_eq, map_toFinset_eq, h1]

/-- A list with twenty distinct case-folded values is non-empty. -/
theorem cfCount_pos_ne_nil (l : List String) (h : cfCount l = 20) : l ≠ [] := by
  intro he
  rw [he] at h
  simp [cfCount] at h

/-- `_add_term_to_field` never introduces an exact duplicate. -/
theorem addTermOpt_nodup (o : Option (List String)) (t : String)
    (h : (o.getD []).Nodup) : ((addTermOpt o t).getD []).Nodup := by
  cases o with
  | none => simp [addTermOpt]
  | some l =>
      by_cases he : l = []
      · simp [addTermOpt, he]
      · simp only [addTermOpt, he, Option.getD_some] at h ⊢
        by_cases hm : t ∈ l
        · simp [he, hm, h]
        · simp only [he, hm, if_true, if_false, ne_eq, not_false_iff]
          simp only [Option.getD_some]
          rw [List.nodup_append]
          exact ⟨h, List.nodup_singleton t, by simpa using hm⟩

/-- Folding `_add_term_to_field` keeps a field exactly duplicate-free. -/
theorem foldl_addTermOpt_nodup (ts : List String) :
    ∀ o : Option (List String), (o.getD []).Nodup →
      ((ts.foldl addTermOpt o).getD []).Nodup := by
  induction ts with
  | nil => intro o h; simpa using h
  | cons t ts ih =>
      intro o h
      rw [List.foldl_cons]
      exact ih _ (addTermOpt_nodup o t h)

/-- `_load_synonyms` keeps the alias list exactly duplicate-free. -/
theorem dbLoadSynonyms_nodup (syns : List (String × String)) :
    ∀ acc : List String, acc.Nodup → (dbLoadSynonyms acc syns).Nodup := by
  induction syns with
  | nil => intro acc h; simpa [dbLoadSynonyms] using h
  | cons e t ih =>
      intro acc h
      rw [dbLoadSynonyms, List.foldl_cons]
      by_cases hc : ¬ e.1 ∈ acc ∧ e.2 = "english"
      · rw [if_pos hc]
        refine ih _ ?_
        rw [List.nodup_append]
        exact ⟨h, List.nodup_singleton _, by simpa using hc.1⟩
      · rw [if_neg hc]
        exact ih acc h

/-- Stored Wikidata alias lists are exactly duplicate-free. -/
theorem wdLoadTherapy_nodup (w : WdItem) :
    ((wdLoadTherapy w).aliases.getD []).Nodup := by
  rw [wdLoadTherapy]
  cases ha : w.aliases with
  | none => simp [ha]
  | some l =>
      by_cases hc : 20 < cfCount l.dedup
      · simp [hc]
      · simp [hc, List.nodup_dedup]

/-- Folding trade names into a record never changes its label. -/
theorem foldl_addTradeName_label (l : List String) :
    ∀ r : RxRecord, (l.foldl addTradeName r).label = r.label := by
  induction l with
  | nil => intro r; rfl
  | cons t ts ih => intro r; rw [List.foldl_cons]; rw [ih]; rfl

/-- `_get_trade_names` never changes a record's label. -/
theorem getTradeNames_label (r : RxRecord)
    (precise ib sb : List (String × List String)) :
    (getTradeNames r precise ib sb).label = r.label := by
  rw [getTradeNames]
  have hfold : ∀ (lbls : List String) (r0 : RxRecord),
      (lbls.foldl (fun record lbl =>
        ((((ib.filter (fun e => lbl = pyLower e.1)).map (·.2)).flatten.dedup).foldl
          addTradeName record)) r0).label = r0.label := by
    intro lbls
    induction lbls with
    | nil => intro r0; rfl
    | cons l ls ih => intro r0; rw [List.foldl_cons, ih, foldl_addTradeName_label]
  cases hd : dictGet sb (pyLower (r.label.getD "")) with
  | none => simp only [hd]; exact hfold _ r
  | some tns => simp only [hd]; rw [foldl_addTradeName_label, hfold]

/-! # Claim theorems -/

/-- C1 (code bug): running the RxNorm transform on exactly the spec's three
example rows leaves concept `rxcui:1` with label `"Aspirin"` but with **no**
`trade_names` attribute, and emits **no** `rx_brand` lookup record, while
the brand table does map `"Bufferin"` to `rxcui:3` — because `_get_brands`
keys `ingredient_to_brands` by brand (holding ingredients), contradicting
its own docstring and the ingredient-keyed lookup in `_get_trade_names`.
The spec's claim (`trade_names` contains `"Bufferin"` plus one `rx_brand`
record) fails on this code. -/
theorem rxnorm_linker_example_run :
    ((rxnormTransform [] exRows).2.1.map
        (fun r => (r.concept_id, r.label, r.trade_names)))
      = [("rxcui:1", some "Aspirin", (none : Option (List String)))]
    ∧ (rxnormTransform [] exRows).2.2 = []
    ∧ dictGet (rxnormTransform [] exRows).1.brand_to_concept_id "Bufferin"
        = some "rxcui:3"
    ∧ (rxnormTransform [] exRows).1.ingredient_to_brands
        = [("Bufferin", ["Aspirin"])] := by
  refine ⟨?_, ?_, ?_, ?_⟩ <;> decide

/-- C2 (counterexample): after processing the single `RXNORM`/`SBDC` row
`"Aspirin 325 MG [Bufferin]"`, the `ingredient_to_brands` table holds the
entry `"Bufferin" ↦ ["Aspirin"]` and has **no** entry under the case-folded
ingredient key `"aspirin"` (nor `"Aspirin"`): the table is keyed by brand
with un-case-folded ingredient values, refuting the claimed
ingredient-keyed, case-folded association. -/
theorem sbdc_ingredient_table_cex :
    (processRow [] initRxState exRow2).ingredient_to_brands
      = [("Bufferin", ["Aspirin"])]
    ∧ dictGet (processRow [] initRxState exRow2).ingredient_to_brands "aspirin"
        = none
    ∧ dictGet (processRow [] initRxState exRow2).ingredient_to_brands "Aspirin"
        = none
    ∧ (processRow [] initRxState exRow2).records = [] := by
  refine ⟨?_, ?_, ?_, ?_⟩ <;> decide

/-- C2 (amended): every row with source-registry `RXNORM` and term type
`SBDC` updates only the `ingredient_to_brands` table — it parses the term
by stripping the strength/units pattern, taking the last bracketed span as
the brand, splitting the remainder on `/` when present, and adding each
whitespace-stripped ingredient (original casing) under the **brand** key;
records, the brand table and the other side tables are untouched, so such a
row never creates or updates a concept record. -/
theorem sbdc_row_parses_into_brand_table (drugForms : List String)
    (st : RxState) (row : RxRow)
    (h1 : row.sab = "RXNORM") (h2 : row.tty = "SBDC") :
    (processRow drugForms st row).records = st.records
    ∧ (processRow drugForms st row).precise_ingredient_to_brand
        = st.precise_ingredient_to_brand
    ∧ (processRow drugForms st row).ingredient_to_sbdf = st.ingredient_to_sbdf
    ∧ (processRow drugForms st row).brand_to_concept_id = st.brand_to_concept_id
    ∧ (processRow drugForms st row).ingredient_to_brands
        = (let ingredientsBrand := stripStrength row.str
           let brand := lastBracket row.str
           let ingredients := pyReplace ingredientsBrand ("[" ++ brand ++ "]")
           if pyContainsChar '/' ingredients then
             (splitChar '/' ingredients).foldl
               (fun t ing => addTermToField t brand (pyStrip ing))
               st.ingredient_to_brands
           else addTermToField st.ingredient_to_brands brand (pyStrip ingredients)) := by
  obtain ⟨rx, sab, tty, code, strv, cvf⟩ := row
  simp only at h1 h2
  subst h1; subst h2
  exact ⟨rfl, rfl, rfl, rfl, rfl⟩

/-- Witness for the amended C2 theorem at the example SBDC row. -/
theorem sbdc_row_parses_into_brand_table_witness :
    (processRow [] initRxState exRow2).records = initRxState.records :=
  (sbdc_row_parses_into_brand_table [] initRxState exRow2 rfl rfl).1

/-- C3: the fan-out cap — an attribute whose list has 21 or more distinct
case-folded values is dropped entirely by the DrugBank and Wikidata sinks,
while an attribute with exactly 20 distinct case-folded values is stored in
full (for Wikidata, up to its exact-duplicate set collapse). -/
theorem fanout_cap_law (p : DbParams) (w : WdItem) (la lt lw : List String)
    (ha : p.aliases = some la) (ht : p.trade_names = some lt)
    (hw : w.aliases = some lw) :
    (21 ≤ cfCount la → (dbLoadTherapy p).aliases = none)
    ∧ (cfCount la = 20 → (dbLoadTherapy p).aliases = some la)
    ∧ (21 ≤ cfCount lt → (dbLoadTherapy p).trade_names = none)
    ∧ (cfCount lt = 20 → (dbLoadTherapy p).trade_names = some lt)
    ∧ (21 ≤ cfCount lw → (wdLoadTherapy w).aliases = none)
    ∧ (cfCount lw = 20 →
        ∃ m, (wdLoadTherapy w).aliases = some m ∧ m.Nodup ∧ ∀ a, a ∈ m ↔ a ∈ lw) := by
  refine ⟨?_, ?_, ?_, ?_, ?_, ?_⟩
  · intro hc
    by_cases ho : p.other_identifiers.getD [] = [] <;>
      simp [dbLoadTherapy, capField, ha, ho, show 20 < cfCount la from hc]
  · intro hc
    have hne := cfCount_pos_ne_nil la hc
    by_cases ho : p.other_identifiers.getD [] = [] <;>
      simp [dbLoadTherapy, capField, ha, hne, hc, ho]
  · intro hc
    by_cases ho : p.other_identifiers.getD [] = [] <;>
      simp [dbLoadTherapy, capField, ht, ho, show 20 < cfCount lt from hc]
  · intro hc
    have hne := cfCount_pos_ne_nil lt hc
    by_cases ho : p.other_identifiers.getD [] = [] <;>
      simp [dbLoadTherapy, capField, ht, hne, hc, ho]
  · intro hc
    have : 20 < cfCount lw.dedup := by rw [cfCount_dedup]; exact hc
    simp [wdLoadTherapy, hw, this]
  · intro hc
    have : ¬ 20 < cfCount lw.dedup := by rw [cfCount_dedup, hc]; exact Nat.lt_irrefl 20
    refine ⟨lw.dedup, ?_, List.nodup_dedup lw, fun a => List.mem_dedup⟩
    simp [wdLoadTherapy, hw, this]

/-- Witness for C3 at a record with 21 distinct aliases, 20 distinct trade
names and a Wikidata item with 21 distinct aliases. -/
theorem fanout_cap_law_witness :
    (dbLoadTherapy c3Params).aliases = none
    ∧ (dbLoadTherapy c3Params).trade_names = some list20
    ∧ (wdLoadTherapy c3WdItem).aliases = none := by
  have h := fanout_cap_law c3Params c3WdItem list21 list20 list21 rfl rfl rfl
  exact ⟨h.1 (by decide), h.2.2.2.1 (by decide), h.2.2.2.2.1 (by decide)⟩

/-- C4: after classification, `other_identifiers` and `xrefs` are disjoint.
The backfill classifier places every identifier in exactly one list,
according to whether its namespace prefix (the text before the first colon)
names a normalizer-native source, defaulting to `xrefs`; the Wikidata
adapter's per-key classification likewise never yields a string in both
lists. -/
theorem other_identifiers_xrefs_disjoint (it : Item) (r : WdRecord) :
    (collectIds it).1
        = (readIds it.other_identifiers ++ readIds it.xrefs).filter classifyId
    ∧ (collectIds it).2
        = (readIds it.other_identifiers ++ readIds it.xrefs).filter
            (fun s => !classifyId s)
    ∧ disjB (collectIds it).1 (collectIds it).2 = true
    ∧ disjB (wikidataIds r).1 (wikidataIds r).2 = true := by
  refine ⟨congrArg Prod.fst (collectIds_eq it), congrArg Prod.snd (collectIds_eq it),
    ?_, ?_⟩
  · rw [disjB, List.all_eq_true]
    intro s hs
    have h1 := mem_collect_fst it s hs
    have hnm : ¬ s ∈ (collectIds it).2 := by
      intro hmem
      have h2 := mem_collect_snd it s hmem
      rw [h1] at h2
      exact Bool.noConfusion h2
    simpa [List.elem_iff] using hnm
  · have hinv := wikidataIds_inv r
    rw [disjB, List.all_eq_true]
    intro s hs
    have h1 := hinv.1 s hs
    have hnm : ¬ s ∈ (wikidataIds r).2 := fun hmem => h1 (hinv.2 s hmem)
    simpa [List.elem_iff] using hnm

/-- C5: after `update_item` runs for a record, each of the two identifier
attributes is present exactly when its reclassified list is non-empty: the
unconditional `SET` is followed by a `REMOVE` of every empty attribute, so
an empty list is never stored. -/
theorem empty_lists_removed_not_stored (it : Item) (o x : List String) :
    (updateItem it o x).1.xrefs = (if x = [] then none else some (AttrVal.l x))
    ∧ (updateItem it o x).1.other_identifiers
        = (if o = [] then none else some (AttrVal.l o)) :=
  ⟨(updateItem_spec it o x).2.1, (updateItem_spec it o x).1⟩

/-- C6 (counterexample): on a store holding one already-migrated identity
record, a second backfill run still issues a positive number of writes —
`update_item` is called unconditionally for every identity record, so the
re-run is not "zero additional writes". -/
theorem backfill_second_run_writes_cex :
    (backfillRun (backfillRun [c6Item]).1).2 ≠ 0 := by
  decide

/-- C6 (amended): the backfill job is idempotent on the stored data — a
second run over the already-migrated store re-issues exactly the same
updates (same stored state, same write count), leaving the stored records
unchanged, though it does not skip the writes. -/
theorem backfill_rerun_is_state_noop (store : List Item) :
    backfillRun ((backfillRun store).1) = backfillRun store := by
  rw [backfillRun_eq store, backfillRun_eq]
  simp [Function.comp_def, backfillItem_idem]

/-- C7: a record with no label after pass 1 is dropped entirely — pass 2
behaves as if it were filtered out (it is never handed to the trade-name
resolution, the brand-association writer, or the sink), and every record
pass 2 does process carries a label. -/
theorem unlabeled_records_dropped
    (precise ib sb : List (String × List String))
    (brands : List (String × String)) (records : List (String × RxRecord)) :
    rxnormPass2 precise ib sb brands records
      = rxnormPass2 precise ib sb brands
          (records.filter (fun e => e.2.label.isSome))
    ∧ (rxnormPass2 precise ib sb brands records).1.all
        (fun r => r.label.isSome) = true := by
  constructor
  · induction records with
    | nil => rfl
    | cons e t ih =>
        by_cases hl : e.2.label.isSome
        · rw [List.filter_cons_of_pos (by simpa using hl)]
          rw [rxnormPass2, rxnormPass2, if_pos hl, if_pos hl, ih]
        · rw [List.filter_cons_of_neg (by simpa using hl)]
          rw [rxnormPass2, if_neg hl, ih]
  · induction records with
    | nil => rfl
    | cons e t ih =>
        rw [rxnormPass2]
        by_cases hl : e.2.label.isSome
        · rw [if_pos hl]
          rw [List.all_eq_true] at ih ⊢
          intro r hr
          rcases List.mem_cons.mp hr with h1 | h1
          · rw [h1]
            have : ({ getTradeNames e.2 precise ib sb with PIN := none } : RxRecord).label
                = (getTradeNames e.2 precise ib sb).label := rfl
            show (({ getTradeNames e.2 precise ib sb with PIN := none } : RxRecord).label).isSome = true
            rw [this, getTradeNames_label]
            exact hl
          · exact ih r h1
        · rw [if_neg hl]; exact ih

/-- C8: the backfill job's updates write only the `other_identifiers` and
`xrefs` attributes — the record's key, source name, label, aliases, trade
names and approval status are left exactly as stored. -/
theorem backfill_touches_only_id_attributes (it : Item) :
    (backfillItem it).1.label = it.label
    ∧ (backfillItem it).1.aliases = it.aliases
    ∧ (backfillItem it).1.trade_names = it.trade_names
    ∧ (backfillItem it).1.approval_status = it.approval_status
    ∧ (backfillItem it).1.label_and_type = it.label_and_type
    ∧ (backfillItem it).1.concept_id = it.concept_id
    ∧ (backfillItem it).1.src_name = it.src_name := by
  by_cases hg : backfillGuard it
  · have h1 : backfillItem it = updateItem it (collectIds it).1 (collectIds it).2 := by
      simp [backfillItem, hg]
    have h := updateItem_spec it (collectIds it).1 (collectIds it).2
    rw [h1]
    exact ⟨h.2.2.2.2.2.1, h.2.2.2.2.2.2.1, h.2.2.2.2.2.2.2.1, h.2.2.2.2.2.2.2.2,
      h.2.2.1, h.2.2.2.1, h.2.2.2.2.1⟩
  · have h1 : backfillItem it = (it, 0) := by simp [backfillItem, hg]
    rw [h1]
    exact ⟨rfl, rfl, rfl, rfl, rfl, rfl, rfl⟩

/-- C9 (counterexample): a stored DrugBank identity record can hold both
`"Aspirin"` and `"ASPIRIN"` as aliases — two distinct values that are equal
after case folding — because `_load_synonyms` deduplicates by exact string
comparison only; this refutes case-insensitive uniqueness of stored
attribute members. -/
theorem casefold_uniqueness_cex :
    (dbLoadTherapy c9Params).aliases = some ["Aspirin", "ASPIRIN"]
    ∧ caseFold "Aspirin" = caseFold "ASPIRIN"
    ∧ "Aspirin" ≠ "ASPIRIN" := by
  refine ⟨?_, ?_, ?_⟩ <;> decide

/-- C9 (amended): stored identity-record attributes are deduplicated by
exact string equality — the RxNorm `_add_term_to_field` accumulator, the
DrugBank synonym loader and the Wikidata alias store all produce lists with
no two identical members, while values differing only in case may coexist
(case folding is used for the fan-out cap count, not member uniqueness). -/
theorem attribute_uniqueness_is_exact (ts : List String)
    (syns : List (String × String)) (w : WdItem) :
    ((ts.foldl addTermOpt none).getD []).Nodup
    ∧ (dbLoadSynonyms [] syns).Nodup
    ∧ ((wdLoadTherapy w).aliases.getD []).Nodup :=
  ⟨foldl_addTermOpt_nodup ts none List.nodup_nil,
   dbLoadSynonyms_nodup syns [] List.nodup_nil,
   wdLoadTherapy_nodup w⟩

/-- C10: every identity item produced by the Wikidata adapter carries both
the `other_identifiers` attribute and the `xrefs` attribute — they are set
(possibly to empty lists) when the item is created and never removed by the
alias merge or the store step. -/
theorem wikidata_identifier_attrs_always_present (records : List WdRecord) :
    (wdTransform records).all
      (fun it => it.other_identifiers.isSome && it.xrefs.isSome) = true := by
  rw [List.all_eq_true]
  intro it hit
  rw [wdTransform] at hit
  rcases List.mem_map.mp hit with ⟨e, he, heq⟩
  have := wdLoadTherapy_attrs e.2 (wdFold_inv records e he)
  rw [← heq]
  simp [this.1, this.2]

end TherapyNorm
